import Mathlib

/-!
# Verification of the Vector-Clock Simulator core (`process_logic.py`)

Shallow embedding of `ProcessLogic` from `src/process_logic.py`.

The node-local observable state is `{vc, history, received_messages}`
(Python lists become Lean lists; Python ints become `Int`; history entries
are the strings built by `_log_event`).  The connection cache and the
RPyC transport are external nondeterminism: whether `_get_connection`
returns a live connection and whether the remote call raises is modelled
by a `SendOutcome` parameter to `send_message`.

Python raises `IndexError` when `self.vc` is shorter than an index the
code writes to; such states are unreachable (the clock is created with
length `n` and every operation preserves the length), and the Lean
definitions totalize them (out-of-range `List.set` is a no-op).  Every
theorem that needs it carries the length invariant as a hypothesis.
-/

/-- Observable state of one `ProcessLogic` instance
(`self.id`, `self.n`, `self.vc`, `self.history`, `self.received_messages`). -/
structure ProcessLogic where
  id : Nat
  n : Nat
  vc : List Int
  history : List String
  received_messages : List String
deriving Repr, DecidableEq

/-- `__init__(process_id, n, base_port)`: `self.vc = [0] * n`,
empty history and received-message log. -/
def ProcessLogic.init (process_id n : Nat) : ProcessLogic :=
  { id := process_id, n := n, vc := List.replicate n 0,
    history := [], received_messages := [] }

/-- `','.join(map(str, self.vc))`. -/
def vcJoin (vc : List Int) : String :=
  String.intercalate "," (vc.map toString)

/-- `_log_event(event_type, details)`:
appends `f"{event_type}{details}: VC={','.join(map(str, self.vc))}"`
to `self.history` (the console `print` is not part of the state). -/
def ProcessLogic.log_event (p : ProcessLogic) (event_type details : String) :
    ProcessLogic :=
  { p with history := p.history ++ [event_type ++ details ++ ": VC=" ++ vcJoin p.vc] }

/-- `self.vc[self.id] += 1` (in-range update; out of range Python raises,
here a no-op — see the header note). -/
def incrAt (l : List Int) (i : Nat) : List Int :=
  l.set i (l.getD i 0 + 1)

/-- `local_event()`: `self.vc[self.id] += 1` then `self._log_event("Local")`. -/
def ProcessLogic.local_event (p : ProcessLogic) : ProcessLogic :=
  ProcessLogic.log_event { p with vc := incrAt p.vc p.id } "Local" ""

/-- `for k in range(self.n): self.vc[k] = max(self.vc[k], sender_vc[k])`.
Slot `k < n` becomes the max; slots `k ≥ n` are untouched. -/
def vcMerge (n : Nat) (vc other : List Int) : List Int :=
  vc.mapIdx fun k x => if k < n then max x (other.getD k 0) else x

/-- `receive_message(sender_id, message, sender_vc)`: if
`len(sender_vc) != self.n` the event is dropped without mutation
(`return`); otherwise merge element-wise max over `range(self.n)`,
increment own slot, append `f"P{sender_id + 1}: {message}"` to
`self.received_messages`, and log `Rec(<sender+1>, '<message>')`. -/
def ProcessLogic.receive_message (p : ProcessLogic) (sender_id : Nat)
    (message : String) (sender_vc : List Int) : ProcessLogic :=
  if sender_vc.length ≠ p.n then p
  else
    let p1 : ProcessLogic := { p with vc := incrAt (vcMerge p.n p.vc sender_vc) p.id }
    let p2 : ProcessLogic :=
      { p1 with received_messages :=
          p1.received_messages ++ ["P" ++ toString (sender_id + 1) ++ ": " ++ message] }
    ProcessLogic.log_event p2 "Rec"
      ("(" ++ toString (sender_id + 1) ++ ", '" ++ message ++ "')")

/-- Outcome of the network phase of `send_message`:
`_get_connection` returns `None` (`connFail`); the remote
`receive_message` call raises (`callFail`); or everything succeeds (`ok`). -/
inductive SendOutcome
  | connFail
  | callFail
  | ok
deriving Repr, DecidableEq

/-- `send_message(target_process_id, message)`, returning
(post state, boolean result, clock snapshot transmitted if a connection
was obtained).  Follows the source: reject invalid target with no state
change; increment own slot; snapshot `timestamp_to_send = list(self.vc)`;
log `Send(..) PREPARE`; on connection failure return `False` (no further
log entry, no rollback); on remote-call failure log `Send(..) FAILED` and
return `False`; on success log `Send(..) CONFIRMED` and return `True`. -/
def ProcessLogic.send_message (p : ProcessLogic) (target : Int)
    (message : String) (net : SendOutcome) :
    ProcessLogic × Bool × Option (List Int) :=
  if target < 0 ∨ (p.n : Int) ≤ target ∨ target = (p.id : Int) then
    (p, false, none)
  else
    let p1 : ProcessLogic := { p with vc := incrAt p.vc p.id }
    let ts : List Int := p1.vc
    let p2 : ProcessLogic :=
      ProcessLogic.log_event p1 "Send"
        ("(" ++ toString (target + 1) ++ ", '" ++ message ++ "') PREPARE")
    match net with
    | .connFail => (p2, false, none)
    | .callFail =>
        (ProcessLogic.log_event p2 "Send"
          ("(" ++ toString (target + 1) ++ ", '" ++ message ++ "') FAILED"),
         false, some ts)
    | .ok =>
        (ProcessLogic.log_event p2 "Send"
          ("(" ++ toString (target + 1) ++ ", '" ++ message ++ "') CONFIRMED"),
         true, some ts)

/-- The snapshot `get_state` returns:
`{"vc": list(self.vc), "history": list(self.history),
"received_messages": list(self.received_messages)}`. -/
structure NodeState where
  vc : List Int
  history : List String
  received_messages : List String
deriving Repr, DecidableEq

/-- `get_state()`: returns the snapshot and the (unchanged) node state —
the Python body only reads `self`, never assigns. -/
def ProcessLogic.get_state (p : ProcessLogic) : NodeState × ProcessLogic :=
  (⟨p.vc, p.history, p.received_messages⟩, p)

/-- `shutdown()`: calls `close_connections()`, which only mutates the
connection cache — not modelled here, as it holds no clock/history/message
state — so the observable state is unchanged. -/
def ProcessLogic.shutdown (p : ProcessLogic) : ProcessLogic := p

/-- One invocation of any of the five exposed operations, with arbitrary
arguments and arbitrary network outcome. -/
inductive Step : ProcessLogic → ProcessLogic → Prop
  | local_event (p : ProcessLogic) : Step p p.local_event
  | send (p : ProcessLogic) (target : Int) (message : String) (net : SendOutcome) :
      Step p (p.send_message target message net).1
  | receive (p : ProcessLogic) (sender_id : Nat) (message : String)
      (sender_vc : List Int) : Step p (p.receive_message sender_id message sender_vc)
  | get_state (p : ProcessLogic) : Step p (p.get_state).2
  | shutdown (p : ProcessLogic) : Step p p.shutdown

/-- States reachable from a given state by a sequence of operations. -/
inductive Reachable : ProcessLogic → ProcessLogic → Prop
  | refl (p : ProcessLogic) : Reachable p p
  | step {a b c : ProcessLogic} : Reachable a b → Step b c → Reachable a c

/-! ## Lemmas about the clock primitives -/

theorem incrAt_length (l : List Int) (i : Nat) : (incrAt l i).length = l.length :=
  List.length_set l i _

theorem getD_incrAt_self (l : List Int) (i : Nat) (h : i < l.length) :
    (incrAt l i).getD i 0 = l.getD i 0 + 1 := by
  rw [incrAt, List.getD_eq_getD_get?, List.get?_set_eq_of_lt _ h]
  rfl

theorem getD_incrAt_ne (l : List Int) (i k : Nat) (h : k ≠ i) :
    (incrAt l i).getD k 0 = l.getD k 0 := by
  rw [incrAt, List.getD_eq_getD_get?, List.get?_set_ne _ _ (Ne.symm h),
    ← List.getD_eq_getD_get?]

theorem getD_incrAt_le (l : List Int) (i k : Nat) :
    l.getD k 0 ≤ (incrAt l i).getD k 0 := by
  by_cases hk : k = i
  · subst hk
    by_cases h : k < l.length
    · rw [getD_incrAt_self l k h]; omega
    · rw [incrAt, List.set_eq_of_length_le (Nat.le_of_not_lt h)]
  · rw [getD_incrAt_ne l i k hk]

theorem vcMerge_length (n : Nat) (vc other : List Int) :
    (vcMerge n vc other).length = vc.length :=
  List.length_mapIdx

theorem getD_vcMerge (n : Nat) (vc other : List Int) (k : Nat) (hk : k < vc.length) :
    (vcMerge n vc other).getD k 0 =
      if k < n then max (vc.getD k 0) (other.getD k 0) else vc.getD k 0 := by
  have h' : k < (vcMerge n vc other).length := by
    rw [vcMerge_length]; exact hk
  rw [List.getD_eq_getElem _ _ h', List.getD_eq_getElem vc _ hk]
  have h2 := List.get_mapIdx vc (fun j x => if j < n then max x (other.getD j 0) else x) k hk
  simpa [vcMerge, List.get_eq_getElem] using h2

theorem getD_vcMerge_le (n : Nat) (vc other : List Int) (k : Nat) :
    vc.getD k 0 ≤ (vcMerge n vc other).getD k 0 := by
  by_cases hk : k < vc.length
  · rw [getD_vcMerge n vc other k hk]
    by_cases h : k < n
    · simp only [h, if_true]
      exact le_max_left _ _
    · simp only [h, if_false]
      exact le_refl _
  · rw [List.getD_eq_default _ _ (Nat.le_of_not_lt hk),
      List.getD_eq_default _ _ (by rw [vcMerge_length]; exact Nat.le_of_not_lt hk)]

/-! ## Reduction lemmas for the operations -/

theorem receive_message_eq (p : ProcessLogic) (sender_id : Nat) (message : String)
    (sender_vc : List Int) (hs : sender_vc.length = p.n) :
    p.receive_message sender_id message sender_vc =
      { p with
        vc := incrAt (vcMerge p.n p.vc sender_vc) p.id,
        history := p.history ++
          ["Rec" ++ ("(" ++ toString (sender_id + 1) ++ ", '" ++ message ++ "')") ++
            ": VC=" ++ vcJoin (incrAt (vcMerge p.n p.vc sender_vc) p.id)],
        received_messages := p.received_messages ++
          ["P" ++ toString (sender_id + 1) ++ ": " ++ message] } := by
  rw [ProcessLogic.receive_message, if_neg (fun hc => hc hs)]
  rfl

theorem send_message_connFail (p : ProcessLogic) (target : Int) (message : String)
    (h : ¬(target < 0 ∨ (p.n : Int) ≤ target ∨ target = (p.id : Int))) :
    p.send_message target message .connFail =
      ({ p with
          vc := incrAt p.vc p.id,
          history := p.history ++
            ["Send" ++ ("(" ++ toString (target + 1) ++ ", '" ++ message ++ "') PREPARE") ++
              ": VC=" ++ vcJoin (incrAt p.vc p.id)] },
        false, none) := by
  rw [ProcessLogic.send_message, if_neg h]
  rfl

theorem send_message_callFail (p : ProcessLogic) (target : Int) (message : String)
    (h : ¬(target < 0 ∨ (p.n : Int) ≤ target ∨ target = (p.id : Int))) :
    p.send_message target message .callFail =
      ({ p with
          vc := incrAt p.vc p.id,
          history := p.history ++
            ["Send" ++ ("(" ++ toString (target + 1) ++ ", '" ++ message ++ "') PREPARE") ++
              ": VC=" ++ vcJoin (incrAt p.vc p.id),
             "Send" ++ ("(" ++ toString (target + 1) ++ ", '" ++ message ++ "') FAILED") ++
              ": VC=" ++ vcJoin (incrAt p.vc p.id)] },
        false, some (incrAt p.vc p.id)) := by
  rw [ProcessLogic.send_message, if_neg h]
  simp [ProcessLogic.log_event]

theorem send_message_ok (p : ProcessLogic) (target : Int) (message : String)
    (h : ¬(target < 0 ∨ (p.n : Int) ≤ target ∨ target = (p.id : Int))) :
    p.send_message target message .ok =
      ({ p with
          vc := incrAt p.vc p.id,
          history := p.history ++
            ["Send" ++ ("(" ++ toString (target + 1) ++ ", '" ++ message ++ "') PREPARE") ++
              ": VC=" ++ vcJoin (incrAt p.vc p.id),
             "Send" ++ ("(" ++ toString (target + 1) ++ ", '" ++ message ++ "') CONFIRMED") ++
              ": VC=" ++ vcJoin (incrAt p.vc p.id)] },
        true, some (incrAt p.vc p.id)) := by
  rw [ProcessLogic.send_message, if_neg h]
  simp [ProcessLogic.log_event]

/-! ## Claim theorems -/

/-- C3: for every node `i` (with `id < n` and a length-`n` clock),
`LocalEvent()` increments `clock[i]` by exactly 1, leaves every other slot
unchanged, appends exactly one `Local` history entry carrying a snapshot of
the post-event clock, leaves the received-message log unchanged, and — being
a total operation with no failure branch — always succeeds. -/
theorem C3_local_event (p : ProcessLogic) (hid : p.id < p.n)
    (hlen : p.vc.length = p.n) :
    (p.local_event).vc.getD p.id 0 = p.vc.getD p.id 0 + 1 ∧
    (∀ k : Nat, k ≠ p.id → (p.local_event).vc.getD k 0 = p.vc.getD k 0) ∧
    (p.local_event).vc.length = p.vc.length ∧
    (p.local_event).history =
      p.history ++ ["Local: VC=" ++ vcJoin (p.local_event).vc] ∧
    (p.local_event).received_messages = p.received_messages := by
  refine ⟨?_, ?_, ?_, rfl, rfl⟩
  · exact getD_incrAt_self p.vc p.id (hlen ▸ hid)
  · intro k hk
    exact getD_incrAt_ne p.vc p.id k hk
  · exact incrAt_length p.vc p.id

/-- Witness for C3 at a concrete node. -/
theorem C3_local_event_witness :
    (ProcessLogic.init 0 2).local_event =
      { id := 0, n := 2, vc := [1, 0], history := ["Local: VC=1,0"],
        received_messages := [] } ∧
    ((ProcessLogic.init 0 2).local_event).vc.getD 0 0 =
      (ProcessLogic.init 0 2).vc.getD 0 0 + 1 :=
  ⟨by decide, (C3_local_event (ProcessLogic.init 0 2) (by decide) (by decide)).1⟩

/-- C4: `SendMessage` with an invalid target (self, negative, or `≥ N`)
returns failure and leaves the whole state unchanged, for every network
outcome. -/
theorem C4_send_invalid_target (p : ProcessLogic) (target : Int)
    (message : String) (net : SendOutcome)
    (h : target = (p.id : Int) ∨ target < 0 ∨ (p.n : Int) ≤ target) :
    p.send_message target message net = (p, false, none) := by
  rw [ProcessLogic.send_message, if_pos (by tauto)]

/-- Witness for C4: sending to oneself fails without touching the state. -/
theorem C4_send_invalid_target_witness :
    (ProcessLogic.init 0 3).send_message 0 "hello" .ok =
      (ProcessLogic.init 0 3, false, none) :=
  C4_send_invalid_target (ProcessLogic.init 0 3) 0 "hello" .ok (by decide)

/-- C5: `ReceiveMessage` with a sender clock whose length differs from `N`
mutates nothing — the state is returned unchanged (the Python `return`
drops the event; no exception propagates). -/
theorem C5_receive_malformed (p : ProcessLogic) (sender_id : Nat)
    (message : String) (sender_vc : List Int) (h : sender_vc.length ≠ p.n) :
    p.receive_message sender_id message sender_vc = p := by
  rw [ProcessLogic.receive_message, if_pos h]

/-- Witness for C5: a length-`N-1` clock is dropped without mutation. -/
theorem C5_receive_malformed_witness :
    (ProcessLogic.init 1 3).receive_message 0 "hi" [4, 4] =
      ProcessLogic.init 1 3 :=
  C5_receive_malformed (ProcessLogic.init 1 3) 0 "hi" [4, 4] (by decide)

/-- C1: `ReceiveMessage(senderId, text, senderClock)` with a length-`N`
sender clock sets `clock[k] = max(old clock[k], senderClock[k])` for every
`k ≠ i` below `N`, sets `clock[i] = max(old clock[i], senderClock[i]) + 1`,
and appends exactly one received message and one `Rec` history entry. -/
theorem C1_receive_message (p : ProcessLogic) (sender_id : Nat)
    (message : String) (sender_vc : List Int) (hlen : p.vc.length = p.n)
    (hs : sender_vc.length = p.n) (hid : p.id < p.n) :
    (∀ k : Nat, k < p.n → k ≠ p.id →
      (p.receive_message sender_id message sender_vc).vc.getD k 0 =
        max (p.vc.getD k 0) (sender_vc.getD k 0)) ∧
    (p.receive_message sender_id message sender_vc).vc.getD p.id 0 =
      max (p.vc.getD p.id 0) (sender_vc.getD p.id 0) + 1 ∧
    (p.receive_message sender_id message sender_vc).received_messages =
      p.received_messages ++ ["P" ++ toString (sender_id + 1) ++ ": " ++ message] ∧
    (p.receive_message sender_id message sender_vc).history =
      p.history ++
        ["Rec" ++ ("(" ++ toString (sender_id + 1) ++ ", '" ++ message ++ "')") ++
          ": VC=" ++ vcJoin (p.receive_message sender_id message sender_vc).vc] := by
  rw [receive_message_eq p sender_id message sender_vc hs]
  refine ⟨?_, ?_, rfl, rfl⟩
  · intro k hkn hki
    rw [getD_incrAt_ne _ p.id k hki,
      getD_vcMerge p.n p.vc sender_vc k (by omega), if_pos hkn]
  · rw [getD_incrAt_self _ p.id (by rw [vcMerge_length]; omega),
      getD_vcMerge p.n p.vc sender_vc p.id (by omega), if_pos hid]

/-- Witness for C1 at the spec's concrete receive scenario. -/
theorem C1_receive_message_witness :
    (ProcessLogic.init 2 3).receive_message 0 "hi" [2, 0, 0] =
      { id := 2, n := 3, vc := [2, 0, 1], history := ["Rec(1, 'hi'): VC=2,0,1"],
        received_messages := ["P1: hi"] } ∧
    ((ProcessLogic.init 2 3).receive_message 0 "hi" [2, 0, 0]).vc.getD 2 0 =
      max ((ProcessLogic.init 2 3).vc.getD 2 0) (([2, 0, 0] : List Int).getD 2 0) + 1 :=
  ⟨by decide,
    (C1_receive_message (ProcessLogic.init 2 3) 0 "hi" [2, 0, 0]
      (by decide) (by decide) (by decide)).2.1⟩

/-- C9: `GetState()` is read-only and deterministic: the node state after
the call is the state before it, two consecutive calls return identical
snapshots, and the snapshot is built from (copies of) the clock, history
and received-message fields.  (Value semantics makes the copy/alias
distinction of the Python source invisible here; the source builds the
snapshot with `list(...)` copies.) -/
theorem C9_get_state (p : ProcessLogic) :
    (p.get_state).2 = p ∧
    (p.get_state).1 = (((p.get_state).2).get_state).1 ∧
    (p.get_state).1 =
      { vc := p.vc, history := p.history,
        received_messages := p.received_messages } :=
  ⟨rfl, rfl, rfl⟩

/-- Every operation preserves the clock length. -/
theorem step_vc_length (p p' : ProcessLogic) (h : Step p p') :
    p'.vc.length = p.vc.length := by
  cases h with
  | local_event => exact incrAt_length p.vc p.id
  | send target message net =>
      by_cases hc : target < 0 ∨ (p.n : Int) ≤ target ∨ target = (p.id : Int)
      · rw [ProcessLogic.send_message, if_pos hc]
      · cases net
        · rw [send_message_connFail p target message hc]
          exact incrAt_length p.vc p.id
        · rw [send_message_callFail p target message hc]
          exact incrAt_length p.vc p.id
        · rw [send_message_ok p target message hc]
          exact incrAt_length p.vc p.id
  | receive sender_id message sender_vc =>
      by_cases hs : sender_vc.length = p.n
      · rw [receive_message_eq p sender_id message sender_vc hs]
        show (incrAt (vcMerge p.n p.vc sender_vc) p.id).length = p.vc.length
        rw [incrAt_length, vcMerge_length]
      · rw [ProcessLogic.receive_message, if_pos hs]
  | get_state => rfl
  | shutdown => rfl

/-- Every operation also preserves `id` and `n`. -/
theorem step_id_n (p p' : ProcessLogic) (h : Step p p') :
    p'.id = p.id ∧ p'.n = p.n := by
  cases h with
  | local_event => exact ⟨rfl, rfl⟩
  | send target message net =>
      by_cases hc : target < 0 ∨ (p.n : Int) ≤ target ∨ target = (p.id : Int)
      · rw [ProcessLogic.send_message, if_pos hc]; exact ⟨rfl, rfl⟩
      · cases net
        · rw [send_message_connFail p target message hc]; exact ⟨rfl, rfl⟩
        · rw [send_message_callFail p target message hc]; exact ⟨rfl, rfl⟩
        · rw [send_message_ok p target message hc]; exact ⟨rfl, rfl⟩
  | receive sender_id message sender_vc =>
      by_cases hs : sender_vc.length = p.n
      · rw [receive_message_eq p sender_id message sender_vc hs]; exact ⟨rfl, rfl⟩
      · rw [ProcessLogic.receive_message, if_pos hs]; exact ⟨rfl, rfl⟩
  | get_state => exact ⟨rfl, rfl⟩
  | shutdown => exact ⟨rfl, rfl⟩

/-- C6: a node created with participant count `N` has a length-`N` clock,
and every operation (`LocalEvent`, `SendMessage` with any arguments and
outcome, `ReceiveMessage` with any arguments, `GetState`, `Shutdown`)
preserves that length, so `len(clock) == N` holds in every reachable
state. -/
theorem C6_clock_length_invariant (i n : Nat) (p : ProcessLogic)
    (h : Reachable (ProcessLogic.init i n) p) : p.vc.length = n := by
  induction h with
  | refl => exact List.length_replicate n 0
  | step _ hbc ih => rw [step_vc_length _ _ hbc]; exact ih

/-- Witness for C6 on a concrete two-operation run. -/
theorem C6_clock_length_invariant_witness :
    (((ProcessLogic.init 0 3).local_event).receive_message 1 "m" [0, 5, 0]).vc.length = 3 :=
  C6_clock_length_invariant 0 3 _
    (Reachable.step
      (Reachable.step (Reachable.refl _) (Step.local_event _))
      (Step.receive _ 1 "m" [0, 5, 0]))

/-- C10: no operation — `LocalEvent`, `SendMessage` with any arguments and
any success/failure outcome, `ReceiveMessage` with any arguments, or the
read-only operations — ever decreases any slot of the clock: each slot
after the call is ≥ its value before the call (and the length is
unchanged). -/
theorem C10_clock_monotone (p p' : ProcessLogic) (h : Step p p') :
    p'.vc.length = p.vc.length ∧
    ∀ k : Nat, p.vc.getD k 0 ≤ p'.vc.getD k 0 := by
  refine ⟨step_vc_length p p' h, ?_⟩
  intro k
  cases h with
  | local_event => exact getD_incrAt_le p.vc p.id k
  | send target message net =>
      by_cases hc : target < 0 ∨ (p.n : Int) ≤ target ∨ target = (p.id : Int)
      · rw [ProcessLogic.send_message, if_pos hc]
      · cases net
        · rw [send_message_connFail p target message hc]
          exact getD_incrAt_le p.vc p.id k
        · rw [send_message_callFail p target message hc]
          exact getD_incrAt_le p.vc p.id k
        · rw [send_message_ok p target message hc]
          exact getD_incrAt_le p.vc p.id k
  | receive sender_id message sender_vc =>
      by_cases hs : sender_vc.length = p.n
      · rw [receive_message_eq p sender_id message sender_vc hs]
        exact le_trans (getD_vcMerge_le p.n p.vc sender_vc k)
          (getD_incrAt_le (vcMerge p.n p.vc sender_vc) p.id k)
      · rw [ProcessLogic.receive_message, if_pos hs]
  | get_state => exact le_refl _
  | shutdown => exact le_refl _

/-- Witness for C10 on a concrete receive step. -/
theorem C10_clock_monotone_witness :
    ((ProcessLogic.init 0 2).receive_message 1 "x" [7, 7]).vc.length =
      (ProcessLogic.init 0 2).vc.length ∧
    ∀ k : Nat, (ProcessLogic.init 0 2).vc.getD k 0 ≤
      ((ProcessLogic.init 0 2).receive_message 1 "x" [7, 7]).vc.getD k 0 :=
  C10_clock_monotone _ _ (Step.receive (ProcessLogic.init 0 2) 1 "x" [7, 7])

/-- C2: a successful `SendMessage` from node `i` to a valid target `j ≠ i`
increments the sender's slot `i` by exactly 1 before transmission,
transmits exactly the post-increment clock, and after the target node runs
`ReceiveMessage` on that payload the target's slot `i` is ≥ the transmitted
slot `i` and the target's own slot strictly increases. -/
theorem C2_send_receive (p q : ProcessLogic) (message : String)
    (hpid : p.id < p.n) (hplen : p.vc.length = p.n)
    (hqn : q.n = p.n) (hqlen : q.vc.length = q.n) (hqid : q.id < q.n)
    (hne : q.id ≠ p.id) :
    (p.send_message (q.id : Int) message .ok).2.1 = true ∧
    (p.send_message (q.id : Int) message .ok).2.2 =
      some ((p.send_message (q.id : Int) message .ok).1.vc) ∧
    (p.send_message (q.id : Int) message .ok).1.vc.getD p.id 0 =
      p.vc.getD p.id 0 + 1 ∧
    ((p.send_message (q.id : Int) message .ok).1.vc).getD p.id 0 ≤
      (q.receive_message p.id message
        ((p.send_message (q.id : Int) message .ok).1.vc)).vc.getD p.id 0 ∧
    q.vc.getD q.id 0 <
      (q.receive_message p.id message
        ((p.send_message (q.id : Int) message .ok).1.vc)).vc.getD q.id 0 := by
  have hq : q.id < p.n := hqn ▸ hqid
  have hvalid : ¬((q.id : Int) < 0 ∨ (p.n : Int) ≤ (q.id : Int) ∨
      (q.id : Int) = (p.id : Int)) := by
    push_neg
    exact ⟨Int.natCast_nonneg q.id, by exact_mod_cast hq, by exact_mod_cast hne⟩
  rw [send_message_ok p (q.id : Int) message hvalid]
  have hts : (incrAt p.vc p.id).length = q.n := by
    rw [incrAt_length, hplen, hqn]
  show _ ∧ _ ∧ (incrAt p.vc p.id).getD p.id 0 = p.vc.getD p.id 0 + 1 ∧
    (incrAt p.vc p.id).getD p.id 0 ≤
      (q.receive_message p.id message (incrAt p.vc p.id)).vc.getD p.id 0 ∧
    q.vc.getD q.id 0 <
      (q.receive_message p.id message (incrAt p.vc p.id)).vc.getD q.id 0
  rw [receive_message_eq q p.id message (incrAt p.vc p.id) hts]
  refine ⟨rfl, rfl, getD_incrAt_self p.vc p.id (by omega), ?_, ?_⟩
  · show (incrAt p.vc p.id).getD p.id 0 ≤
      (incrAt (vcMerge q.n q.vc (incrAt p.vc p.id)) q.id).getD p.id 0
    rw [getD_incrAt_ne _ q.id p.id (Ne.symm hne),
      getD_vcMerge q.n q.vc _ p.id (by omega), if_pos (by omega : p.id < q.n)]
    exact le_max_right _ _
  · show q.vc.getD q.id 0 <
      (incrAt (vcMerge q.n q.vc (incrAt p.vc p.id)) q.id).getD q.id 0
    have hmle := getD_vcMerge_le q.n q.vc (incrAt p.vc p.id) q.id
    rw [getD_incrAt_self _ q.id (by rw [vcMerge_length]; omega)]
    omega

/-- Witness for C2: the spec's concrete N=3 scenario — P1 does a local
event (clock [1,0,0]), then sends "hi" to P3 (clock and payload [2,0,0]),
and P3 receives it from a zero clock (clock [2,0,1]). -/
theorem C2_send_receive_witness :
    ((ProcessLogic.init 0 3).local_event).vc = [1, 0, 0] ∧
    ((((ProcessLogic.init 0 3).local_event).send_message 2 "hi" .ok).1.vc = [2, 0, 0] ∧
      (((ProcessLogic.init 0 3).local_event).send_message 2 "hi" .ok).2.2 = some [2, 0, 0] ∧
      ((ProcessLogic.init 2 3).receive_message 0 "hi" [2, 0, 0]).vc = [2, 0, 1]) ∧
    ((((ProcessLogic.init 0 3).local_event).send_message 2 "hi" .ok).2.1 = true ∧
      (((ProcessLogic.init 0 3).local_event).send_message 2 "hi" .ok).2.2 =
        some ((((ProcessLogic.init 0 3).local_event).send_message 2 "hi" .ok).1.vc) ∧
      (((ProcessLogic.init 0 3).local_event).send_message 2 "hi" .ok).1.vc.getD 0 0 =
        ((ProcessLogic.init 0 3).local_event).vc.getD 0 0 + 1 ∧
      ((((ProcessLogic.init 0 3).local_event).send_message 2 "hi" .ok).1.vc).getD 0 0 ≤
        ((ProcessLogic.init 2 3).receive_message 0 "hi"
          ((((ProcessLogic.init 0 3).local_event).send_message 2 "hi" .ok).1.vc)).vc.getD 0 0 ∧
      (ProcessLogic.init 2 3).vc.getD 2 0 <
        ((ProcessLogic.init 2 3).receive_message 0 "hi"
          ((((ProcessLogic.init 0 3).local_event).send_message 2 "hi" .ok).1.vc)).vc.getD 2 0) :=
  ⟨by decide, ⟨by decide, by decide, by decide⟩,
    C2_send_receive ((ProcessLogic.init 0 3).local_event) (ProcessLogic.init 2 3) "hi"
      (by decide) (by decide) (by decide) (by decide) (by decide) (by decide)⟩

/-- C7 counterexample: on a connection-acquisition failure the code returns
`False` and keeps the clock increment, but appends NO failure-marking
history entry — the only entry appended is the PREPARE entry logged before
the connection attempt (the failure is merely printed to the console).
Concretely, node 0 of 2 sending "hi" to node 1 ends with exactly one
history entry, and no entry contains "FAILED". -/
theorem C7_counterexample :
    ((ProcessLogic.init 0 2).send_message 1 "hi" .connFail).2.1 = false ∧
    ((ProcessLogic.init 0 2).send_message 1 "hi" .connFail).1.vc = [1, 0] ∧
    ((ProcessLogic.init 0 2).send_message 1 "hi" .connFail).1.history =
      ["Send(2, 'hi') PREPARE: VC=1,0"] ∧
    ∀ e ∈ ((ProcessLogic.init 0 2).send_message 1 "hi" .connFail).1.history,
      ¬ ("FAILED".data <:+: e.data) :=
  ⟨by decide, by decide, by decide, by decide⟩

/-- C7 amended: for every `SendMessage` to a valid target whose connection
acquisition fails, the call returns failure and the clock increment is not
rolled back (slot `i` is one higher than before the call), but the only
history entry appended is the `Send .. PREPARE` entry logged before the
connection attempt — no failure-marking entry is appended. -/
theorem C7_connection_failure (p : ProcessLogic) (target : Int)
    (message : String) (hid : p.id < p.n) (hlen : p.vc.length = p.n)
    (h : ¬(target < 0 ∨ (p.n : Int) ≤ target ∨ target = (p.id : Int))) :
    (p.send_message target message .connFail).2.1 = false ∧
    (p.send_message target message .connFail).1.vc.getD p.id 0 =
      p.vc.getD p.id 0 + 1 ∧
    (p.send_message target message .connFail).1.history =
      p.history ++
        ["Send" ++ ("(" ++ toString (target + 1) ++ ", '" ++ message ++ "') PREPARE") ++
          ": VC=" ++ vcJoin ((p.send_message target message .connFail).1.vc)] := by
  rw [send_message_connFail p target message h]
  exact ⟨rfl, getD_incrAt_self p.vc p.id (by omega), rfl⟩

/-- Witness for C7 (amended) at a concrete node. -/
theorem C7_connection_failure_witness :
    ((ProcessLogic.init 0 2).send_message 1 "hey" .connFail).2.1 = false ∧
    ((ProcessLogic.init 0 2).send_message 1 "hey" .connFail).1.vc.getD 0 0 =
      (ProcessLogic.init 0 2).vc.getD 0 0 + 1 ∧
    ((ProcessLogic.init 0 2).send_message 1 "hey" .connFail).1.history =
      (ProcessLogic.init 0 2).history ++
        ["Send" ++ ("(" ++ toString ((1 : Int) + 1) ++ ", '" ++ "hey" ++ "') PREPARE") ++
          ": VC=" ++ vcJoin (((ProcessLogic.init 0 2).send_message 1 "hey" .connFail).1.vc)] :=
  C7_connection_failure (ProcessLogic.init 0 2) 1 "hey" (by decide) (by decide) (by decide)

/-- The spec's history-entry template (claim C8 / spec §6), read literally:
a head — the event tag with its optional `(<peer>, '<text>')` part —
followed by the separator " : VC=" (space before the colon) and the
comma-joined clock slots. -/
def SpecFormatted (n : Nat) (s : String) : Prop :=
  ∃ (head : String) (vc : List Int),
    vc.length = n ∧ s = head ++ " : VC=" ++ vcJoin vc

/-- Any string conforming to the spec template contains its mandatory
" : VC=" separator. -/
theorem specFormatted_sep_infix (n : Nat) (s : String)
    (h : SpecFormatted n s) : (" : VC=").data <:+: s.data := by
  obtain ⟨head, vc, -, rfl⟩ := h
  exact ⟨head.data, (vcJoin vc).data, by simp [vcJoin]⟩

/-- C8 counterexample: the entry a local event actually produces is
"Local: VC=1,0,0", with no space before the colon; it contains no
" : VC=" separator, so it matches no instantiation of the spec's
template `"<EventTag>[(<peer>, '<text>')] : VC=<v0>,...,<vN-1>"`. -/
theorem C8_counterexample :
    ((ProcessLogic.init 0 3).local_event).history = ["Local: VC=1,0,0"] ∧
    ¬ SpecFormatted 3 "Local: VC=1,0,0" := by
  refine ⟨by decide, fun h => ?_⟩
  have hinf := specFormatted_sep_infix 3 _ h
  revert hinf
  decide

/-- The tag-and-details part of an entry the code can produce: `Local`,
`Rec(<peer+1>, '<text>')`, or `Send(<peer+1>, '<text>')` followed by
` PREPARE`, ` CONFIRMED` or ` FAILED`, the peer rendered 1-indexed. -/
def AllowedTagDet (tagdet : String) : Prop :=
  tagdet = "Local" ∨
  (∃ (peer : Nat) (text : String),
    tagdet = "Rec" ++ ("(" ++ toString (peer + 1) ++ ", '" ++ text ++ "')")) ∨
  (∃ (peer : Int) (text : String), 0 ≤ peer ∧
    (tagdet = "Send" ++ ("(" ++ toString (peer + 1) ++ ", '" ++ text ++ "') PREPARE") ∨
     tagdet = "Send" ++ ("(" ++ toString (peer + 1) ++ ", '" ++ text ++ "') CONFIRMED") ∨
     tagdet = "Send" ++ ("(" ++ toString (peer + 1) ++ ", '" ++ text ++ "') FAILED")))

/-- C8 amended: every history entry appended by any operation has the form
`<EventTag>[(<peer>, '<text>')[ PREPARE| CONFIRMED| FAILED]]: VC=<v0>,...,<vN-1>`
— the spec's template except that no space precedes the colon — with the
tag among Local/Send/Rec, the peer rendered 1-indexed, and the VC part the
comma-joined `N` slots of the post-event clock. -/
theorem C8_entry_format (p p' : ProcessLogic) (hstep : Step p p')
    (hlen : p.vc.length = p.n) :
    ∃ new : List String,
      p'.history = p.history ++ new ∧
      p'.vc.length = p.n ∧
      ∀ e ∈ new, ∃ tagdet : String,
        AllowedTagDet tagdet ∧ e = tagdet ++ ": VC=" ++ vcJoin p'.vc := by
  cases hstep with
  | local_event =>
      refine ⟨["Local: VC=" ++ vcJoin (incrAt p.vc p.id)], rfl,
        by show (incrAt p.vc p.id).length = p.n
           rw [incrAt_length]; exact hlen,
        ?_⟩
      intro e he
      rw [List.mem_singleton] at he
      subst he
      exact ⟨"Local", Or.inl rfl, rfl⟩
  | send target message net =>
      by_cases hc : target < 0 ∨ (p.n : Int) ≤ target ∨ target = (p.id : Int)
      · refine ⟨[], ?_, ?_, by simp⟩
        · rw [ProcessLogic.send_message, if_pos hc, List.append_nil]
        · rw [ProcessLogic.send_message, if_pos hc]; exact hlen
      · have h0 : (0 : Int) ≤ target := by
          rcases lt_or_le target 0 with hlt | hle
          · exact absurd (Or.inl hlt) hc
          · exact hle
        cases net
        · rw [send_message_connFail p target message hc]
          refine ⟨["Send" ++ ("(" ++ toString (target + 1) ++ ", '" ++ message ++
              "') PREPARE") ++ ": VC=" ++ vcJoin (incrAt p.vc p.id)], rfl,
            by show (incrAt p.vc p.id).length = p.n
               rw [incrAt_length]; exact hlen, ?_⟩
          intro e he
          rw [List.mem_singleton] at he
          subst he
          exact ⟨"Send" ++ ("(" ++ toString (target + 1) ++ ", '" ++ message ++ "') PREPARE"),
            Or.inr (Or.inr ⟨target, message, h0, Or.inl rfl⟩), rfl⟩
        · rw [send_message_callFail p target message hc]
          refine ⟨["Send" ++ ("(" ++ toString (target + 1) ++ ", '" ++ message ++
              "') PREPARE") ++ ": VC=" ++ vcJoin (incrAt p.vc p.id),
            "Send" ++ ("(" ++ toString (target + 1) ++ ", '" ++ message ++
              "') FAILED") ++ ": VC=" ++ vcJoin (incrAt p.vc p.id)], rfl,
            by show (incrAt p.vc p.id).length = p.n
               rw [incrAt_length]; exact hlen, ?_⟩
          intro e he
          rw [List.mem_cons, List.mem_singleton] at he
          rcases he with he | he <;> subst he
          · exact ⟨"Send" ++ ("(" ++ toString (target + 1) ++ ", '" ++ message ++ "') PREPARE"),
              Or.inr (Or.inr ⟨target, message, h0, Or.inl rfl⟩), rfl⟩
          · exact ⟨"Send" ++ ("(" ++ toString (target + 1) ++ ", '" ++ message ++ "') FAILED"),
              Or.inr (Or.inr ⟨target, message, h0, Or.inr (Or.inr rfl)⟩), rfl⟩
        · rw [send_message_ok p target message hc]
          refine ⟨["Send" ++ ("(" ++ toString (target + 1) ++ ", '" ++ message ++
              "') PREPARE") ++ ": VC=" ++ vcJoin (incrAt p.vc p.id),
            "Send" ++ ("(" ++ toString (target + 1) ++ ", '" ++ message ++
              "') CONFIRMED") ++ ": VC=" ++ vcJoin (incrAt p.vc p.id)], rfl,
            by show (incrAt p.vc p.id).length = p.n
               rw [incrAt_length]; exact hlen, ?_⟩
          intro e he
          rw [List.mem_cons, List.mem_singleton] at he
          rcases he with he | he <;> subst he
          · exact ⟨"Send" ++ ("(" ++ toString (target + 1) ++ ", '" ++ message ++ "') PREPARE"),
              Or.inr (Or.inr ⟨target, message, h0, Or.inl rfl⟩), rfl⟩
          · exact ⟨"Send" ++ ("(" ++ toString (target + 1) ++ ", '" ++ message ++ "') CONFIRMED"),
              Or.inr (Or.inr ⟨target, message, h0, Or.inr (Or.inl rfl)⟩), rfl⟩
  | receive sender_id message sender_vc =>
      by_cases hok : sender_vc.length = p.n
      · rw [receive_message_eq p sender_id message sender_vc hok]
        refine ⟨["Rec" ++ ("(" ++ toString (sender_id + 1) ++ ", '" ++ message ++ "')") ++
            ": VC=" ++ vcJoin (incrAt (vcMerge p.n p.vc sender_vc) p.id)], rfl,
          by show (incrAt (vcMerge p.n p.vc sender_vc) p.id).length = p.n
             rw [incrAt_length, vcMerge_length]; exact hlen, ?_⟩
        intro e he
        rw [List.mem_singleton] at he
        subst he
        exact ⟨"Rec" ++ ("(" ++ toString (sender_id + 1) ++ ", '" ++ message ++ "')"),
          Or.inr (Or.inl ⟨sender_id, message, rfl⟩), rfl⟩
      · refine ⟨[], ?_, ?_, by simp⟩
        · rw [ProcessLogic.receive_message, if_pos hok, List.append_nil]
        · rw [ProcessLogic.receive_message, if_pos hok]; exact hlen
  | get_state => exact ⟨[], (List.append_nil _).symm, hlen, by simp⟩
  | shutdown => exact ⟨[], (List.append_nil _).symm, hlen, by simp⟩

/-- Witness for C8 (amended) on a concrete local-event step. -/
theorem C8_entry_format_witness :
    ∃ new : List String,
      ((ProcessLogic.init 0 1).local_event).history =
        (ProcessLogic.init 0 1).history ++ new ∧
      ((ProcessLogic.init 0 1).local_event).vc.length = (ProcessLogic.init 0 1).n ∧
      ∀ e ∈ new, ∃ tagdet : String,
        AllowedTagDet tagdet ∧
          e = tagdet ++ ": VC=" ++ vcJoin ((ProcessLogic.init 0 1).local_event).vc :=
  C8_entry_format _ _ (Step.local_event (ProcessLogic.init 0 1)) (by decide)
